import Mathlib

/-!
Verification of the Winston line-buffer and event-routing core.

This file gives a shallow embedding of the Python sources
(winston/dialogs.py, winston/anchor.py, winston/applets/editor.py)
and proves the specified properties about it.

Modelling conventions:
* Python strings are Lean strings; all slicing in the source is by
  codepoint index, matching String.take / String.drop / String.length.
* The buffer-relevant state of a Dialog object is its list of unnamed child
  lines (each contributing child.value or the empty string, exactly what
  every read site and Dialog.lines() computes), the cursor, and the
  embedded Selection.  Tree fields (name, parent, named children, queues)
  are never read by the buffer operations and are omitted.
* Mutating methods become functions Dialog to Dialog.
* Python indexing self.unnamed_list at i raises IndexError when out of
  range; the embedding totalises those reads with getD and records at
  each site that reachable callers keep the index in range.
-/

namespace Winston

/-- Selection state from winston/dialogs.py.  Python stores four fields
that are either all None (after reset) or ints; Option Nat captures both
shapes, including the transient ones expressible through the raw
setters. -/
structure Selection where
  start_line : Option Nat
  start_offset : Option Nat
  end_line : Option Nat
  end_offset : Option Nat
deriving Repr, DecidableEq

/-- Selection.reset: clears every field to None. -/
def Selection.reset : Selection :=
  ⟨none, none, none, none⟩

/-- Selection.set_anchor: start and end both become the given point. -/
def Selection.set_anchor (line offset : Nat) : Selection :=
  ⟨some line, some offset, some line, some offset⟩

/-- Selection.update_end: moves the extent only. -/
def Selection.update_end (s : Selection) (line offset : Nat) : Selection :=
  { s with end_line := some line, end_offset := some offset }

/-- Selection.is_active: start_line is set and the anchor differs from
the extent (Python compares the possibly-None fields with not-equal,
which Option equality reproduces). -/
def Selection.is_active (s : Selection) : Bool :=
  s.start_line.isSome &&
    (s.start_line != s.end_line || s.start_offset != s.end_offset)

/-- Lexicographic less-or-equal on (line, offset) pairs, the order Python
tuple comparison uses in Selection.ordered. -/
def tupleLe (a b : Nat × Nat) : Bool :=
  decide (a.1 < b.1) || (decide (a.1 = b.1) && decide (a.2 ≤ b.2))

/-- Selection.ordered: returns ((first_line, first_off), (last_line,
last_off)).  Python compares the stored tuples directly and is only
invoked on active selections, whose four fields are all set in every
reachable state (set_anchor sets all four and update_end keeps them
set); getD 0 totalises the unreachable None reads. -/
def Selection.ordered (s : Selection) : (Nat × Nat) × (Nat × Nat) :=
  let st := (s.start_line.getD 0, s.start_offset.getD 0)
  let en := (s.end_line.getD 0, s.end_offset.getD 0)
  if tupleLe st en then (st, en) else (en, st)

/-- Buffer-relevant state of a Dialog from winston/dialogs.py: the line
contents (child.value or the empty string for each unnamed child, which
is also exactly what the lines() accessor returns), the cursor, and the
selection. -/
structure Dialog where
  lines : List String
  cursor_line : Option Nat
  cursor_offset : Nat
  selection : Selection
deriving Repr, DecidableEq

/-- Reads self.unnamed list at index i as (value or empty), the idiom of
every read site in the source.  Python raises IndexError out of range;
reachable callers keep the cursor inside the buffer. -/
def Dialog.lineAt (d : Dialog) (i : Nat) : String :=
  d.lines.getD i ""

/-- Embeds the private helper update_selection(is_shifted, prev_line,
prev_offset) of Dialog: on a shifted move, anchor at the pre-move
position when no selection is active, then move the extent to the
current cursor; on an unshifted move, reset.  The cursor line is an int
at every call site (the movement methods return early when it is None),
so getD 0 is never the value read. -/
def Dialog.update_selection (d : Dialog) (is_shifted : Bool)
    (prev_line prev_offset : Nat) : Dialog :=
  if is_shifted then
    let sel :=
      if !d.selection.is_active then
        Selection.set_anchor prev_line prev_offset
      else d.selection
    { d with selection := sel.update_end (d.cursor_line.getD 0) d.cursor_offset }
  else
    { d with selection := Selection.reset }

/-- Dialog.move_left: decrement the offset, or wrap to the end of the
previous line; no-op on an uninitialised cursor. -/
def Dialog.move_left (d : Dialog) (is_shifted : Bool := false) : Dialog :=
  match d.cursor_line with
  | none => d
  | some cl =>
    let prev_off := d.cursor_offset
    let d1 :=
      if d.cursor_offset > 0 then
        { d with cursor_offset := d.cursor_offset - 1 }
      else if cl > 0 then
        { d with cursor_line := some (cl - 1),
                 cursor_offset := (d.lineAt (cl - 1)).length }
      else d
    d1.update_selection is_shifted cl prev_off

/-- Dialog.move_right: increment the offset, or wrap to the start of the
next line; no-op on an uninitialised cursor. -/
def Dialog.move_right (d : Dialog) (is_shifted : Bool := false) : Dialog :=
  match d.cursor_line with
  | none => d
  | some cl =>
    let prev_off := d.cursor_offset
    let line_text := d.lineAt cl
    let d1 :=
      if d.cursor_offset < line_text.length then
        { d with cursor_offset := d.cursor_offset + 1 }
      else if cl + 1 < d.lines.length then
        { d with cursor_line := some (cl + 1), cursor_offset := 0 }
      else d
    d1.update_selection is_shifted cl prev_off

/-- Dialog.move_up: go one line up, clamping the offset to that line;
no-op on an uninitialised cursor or on the first line. -/
def Dialog.move_up (d : Dialog) (is_shifted : Bool := false) : Dialog :=
  match d.cursor_line with
  | none => d
  | some cl =>
    if cl = 0 then d
    else
      let prev_off := d.cursor_offset
      let line_len := (d.lineAt (cl - 1)).length
      let d1 := { d with cursor_line := some (cl - 1),
                         cursor_offset := min d.cursor_offset line_len }
      d1.update_selection is_shifted cl prev_off

/-- Dialog.move_down: go one line down, clamping the offset to that
line; no-op on an uninitialised cursor or on the last line. -/
def Dialog.move_down (d : Dialog) (is_shifted : Bool := false) : Dialog :=
  match d.cursor_line with
  | none => d
  | some cl =>
    if d.lines.length ≤ cl + 1 then d
    else
      let prev_off := d.cursor_offset
      let line_len := (d.lineAt (cl + 1)).length
      let d1 := { d with cursor_line := some (cl + 1),
                         cursor_offset := min d.cursor_offset line_len }
      d1.update_selection is_shifted cl prev_off

/-- Dialog.move_home: offset becomes 0. -/
def Dialog.move_home (d : Dialog) (is_shifted : Bool := false) : Dialog :=
  match d.cursor_line with
  | none => d
  | some cl =>
    let prev_off := d.cursor_offset
    let d1 := { d with cursor_offset := 0 }
    d1.update_selection is_shifted cl prev_off

/-- Dialog.move_end: offset becomes the current line length. -/
def Dialog.move_end (d : Dialog) (is_shifted : Bool := false) : Dialog :=
  match d.cursor_line with
  | none => d
  | some cl =>
    let prev_off := d.cursor_offset
    let d1 := { d with cursor_offset := (d.lineAt cl).length }
    d1.update_selection is_shifted cl prev_off

/-- Embeds the private helper delete_selection of Dialog: on one line,
remove the span between the ordered offsets; across lines, keep the
prefix of the first line, the suffix of the last line, join them on the
first line and delete the slice first+1 .. last (del lines[s+1 : e+1] is
take (s+1) followed by drop (e+1); ordered() makes s at most e here).
Cursor moves to the first endpoint and the selection resets. -/
def Dialog.delete_selection (d : Dialog) : Dialog :=
  match d.selection.ordered with
  | ((s_line, s_off), (e_line, e_off)) =>
    let d1 :=
      if s_line = e_line then
        let text := d.lineAt s_line
        { d with lines := d.lines.set s_line (text.take s_off ++ text.drop e_off) }
      else
        let lines1 := d.lines.set s_line ((d.lineAt s_line).take s_off)
        let last_right := (lines1.getD e_line "").drop e_off
        let lines2 := lines1.take (s_line + 1) ++ lines1.drop (e_line + 1)
        let lines3 := lines2.set s_line ((lines2.getD s_line "") ++ last_right)
        { d with lines := lines3 }
    { d1 with cursor_line := some s_line, cursor_offset := s_off,
              selection := Selection.reset }

/-- Dialog.insert_char: create an empty first line when the buffer is
uninitialised, delete an active selection, then splice the argument into
the cursor line and advance the offset (Python accepts any string here
and always advances by one).  After the first two steps the cursor line
is always set, so getD 0 is never the value read. -/
def Dialog.insert_char (d : Dialog) (ch : String) : Dialog :=
  let d0 :=
    match d.cursor_line with
    | none => { d with lines := d.lines ++ [""], cursor_line := some 0 }
    | some _ => d
  let d1 := if d0.selection.is_active then d0.delete_selection else d0
  let cl := d1.cursor_line.getD 0
  let text := d1.lineAt cl
  { d1 with
      lines := d1.lines.set cl
        (text.take d1.cursor_offset ++ ch ++ text.drop d1.cursor_offset),
      cursor_offset := d1.cursor_offset + 1 }

/-- Dialog.delete_left (backspace): delete an active selection; at the
buffer start, no-op; with a positive offset, remove the character before
the cursor; at offset 0 on a later line, merge the current line onto the
previous one, delete it, and park the cursor at the pre-merge length
of the previous line. -/
def Dialog.delete_left (d : Dialog) : Dialog :=
  if d.selection.is_active then d.delete_selection
  else
    match d.cursor_line with
    | none => d
    | some cl =>
      if cl = 0 ∧ d.cursor_offset = 0 then d
      else if d.cursor_offset > 0 then
        let text := d.lineAt cl
        { d with
            lines := d.lines.set cl
              (text.take (d.cursor_offset - 1) ++ text.drop d.cursor_offset),
            cursor_offset := d.cursor_offset - 1 }
      else
        let prev_len := (d.lineAt (cl - 1)).length
        let lines1 := d.lines.set (cl - 1) (d.lineAt (cl - 1) ++ d.lineAt cl)
        { d with lines := lines1.eraseIdx cl,
                 cursor_line := some (cl - 1),
                 cursor_offset := prev_len }

/-- Dialog.delete_right (delete key): delete an active selection; remove
the character at the cursor when one exists; otherwise merge the next
line into the current one; no-op at the very end of the buffer. -/
def Dialog.delete_right (d : Dialog) : Dialog :=
  if d.selection.is_active then d.delete_selection
  else
    match d.cursor_line with
    | none => d
    | some cl =>
      let text := d.lineAt cl
      if d.cursor_offset < text.length then
        let text2 := text.take d.cursor_offset ++ text.drop (d.cursor_offset + 1)
        { d with lines := d.lines.set cl text2 }
      else if cl + 1 < d.lines.length then
        { d with lines := (d.lines.set cl (text ++ d.lineAt (cl + 1))).eraseIdx (cl + 1) }
      else d

/-- Dialog.split_line (enter): create an empty first line when the
buffer is uninitialised, then split the cursor line at the offset, keep
the left part in place, insert the right part just after it (Python
list.insert, i.e. take, singleton, drop), and move the cursor to offset
0 of the inserted line. -/
def Dialog.split_line (d : Dialog) : Dialog :=
  let d0 :=
    match d.cursor_line with
    | none => { d with lines := d.lines ++ [""], cursor_line := some 0 }
    | some _ => d
  let cl := d0.cursor_line.getD 0
  let text := d0.lineAt cl
  let before := text.take d0.cursor_offset
  let after := text.drop d0.cursor_offset
  let lines1 := d0.lines.set cl before
  { d0 with
      lines := lines1.take (cl + 1) ++ [after] ++ lines1.drop (cl + 1),
      cursor_line := some (cl + 1),
      cursor_offset := 0 }

/-- Key event from winston/anchor.py: a key identifier plus four
independent modifier flags. -/
structure ModifiedKey where
  key : String
  ctrl : Bool := false
  alt : Bool := false
  shift : Bool := false
  meta : Bool := false
deriving Repr, DecidableEq

/-- Codepoint-level model of Python str.lower, used by canon below.
Lean String.toLower is extensionally the same map but its loop does not
reduce in the kernel, so the list form is used. -/
def pyLower (s : String) : String :=
  String.mk (s.data.map Char.toLower)

/-- Embeds the module-level canonicaliser of winston/anchor.py: emit the
set modifier names in the fixed order control, alt, shift, meta, then
the lower-cased key, all joined with plus signs. -/
def canon (mk : ModifiedKey) : String :=
  let parts :=
    (if mk.ctrl then ["control"] else []) ++
    (if mk.alt then ["alt"] else []) ++
    (if mk.shift then ["shift"] else []) ++
    (if mk.meta then ["meta"] else []) ++
    [pyLower mk.key]
  String.intercalate "+" parts

/-- Fuel-indexed scan for pyReplace: replaces each non-overlapping
occurrence of pat left to right, consuming at least one character per
step so fuel equal to the input length suffices. -/
def replaceChars (pat repl : List Char) : Nat → List Char → List Char
  | _, [] => []
  | 0, cs => cs
  | Nat.succ fuel, c :: cs =>
    if pat.isPrefixOf (c :: cs) && !pat.isEmpty then
      repl ++ replaceChars pat repl fuel (cs.drop (pat.length - 1))
    else
      c :: replaceChars pat repl fuel cs

/-- Codepoint-level model of Python str.replace for a nonempty pattern
(the dispatcher only ever passes the pattern shift-plus): every
non-overlapping occurrence is replaced left to right. -/
def pyReplace (s pat repl : String) : String :=
  String.mk (replaceChars pat.data repl.data s.data.length s.data)

/-- Outcome of one dispatch: a bound handler was invoked, or the event
went to the overridable unbound-key fallback. -/
inductive DispatchResult (H : Type) where
  | handler (h : H)
  | unbound
deriving Repr, DecidableEq

/-- Embeds AppletDialog dispatch from winston/anchor.py: look the
canonical string up in the binding table; when that misses and shift was
set, strip the shift component (str.replace of the shift-plus token with
the empty string) and retry; otherwise fall through to the unbound-key
handler.  The binding table is modelled by its lookup function, the
meaning of dict.get. -/
def dispatch {H : Type} (bindings : String → Option H) (mk : ModifiedKey) :
    DispatchResult H :=
  let c := canon mk
  let func := bindings c
  let func :=
    if func.isNone && mk.shift then bindings (pyReplace c "shift+" "")
    else func
  match func with
  | some f => DispatchResult.handler f
  | none => DispatchResult.unbound

/-- Router state from winston/anchor.py: the factory registry, the
registry of live applet instances (dict insertion order kept as list
order), and the currently focused name.  A is the applet-instance type;
a factory builds the instance from the requested name (the Python
factory also receives the anchor back-pointer, which is identity the
router threads by reference and not part of the routed state).  Worker
threads and queues live outside this state. -/
structure Anchor (A : Type) where
  applet_classes : List (String × (String → A))
  applets : List (String × A)
  active_name : Option String

/-- Embeds Anchor.activate: raising KeyError for an unregistered name is
the error branch carrying the untouched state; otherwise the instance is
created on first activation (appended to the live registry, worker
started as a side effect) and the name becomes focused.  The
deactivation and activation hooks invoked on the way are applet-side
effects, not router state. -/
def Anchor.activate {A : Type} (an : Anchor A) (name : String) :
    Except String Unit × Anchor A :=
  match List.lookup name an.applet_classes with
  | none => (Except.error name, an)
  | some klass =>
    let an1 :=
      if (List.lookup name an.applets).isSome then an
      else { an with applets := an.applets ++ [(name, klass name)] }
    (Except.ok (), { an1 with active_name := some name })

/-- Codepoint-level model of the save payload in
winston/applets/editor.py command_save: the buffer lines joined with
single newline separators (the Python newline-join of lines()). -/
def savePayload (ls : List String) : List Char :=
  List.intercalate ['\n'] (ls.map String.data)

/-- Splitting a character stream on newline separators, the re-reading
half of the save round-trip. -/
def splitNewlines (cs : List Char) : List (List Char) :=
  cs.splitOn '\n'

/-- One buffer operation, for invariants quantified over every
TextBuffer operation. -/
inductive BufOp where
  | moveLeft (sh : Bool)
  | moveRight (sh : Bool)
  | moveUp (sh : Bool)
  | moveDown (sh : Bool)
  | moveHome (sh : Bool)
  | moveEnd (sh : Bool)
  | insertChar (ch : String)
  | deleteLeft
  | deleteRight
  | splitLine
  | deleteSelection
deriving Repr, DecidableEq

/-- Interpretation of one buffer operation on a Dialog. -/
def BufOp.apply : BufOp → Dialog → Dialog
  | .moveLeft sh, d => d.move_left sh
  | .moveRight sh, d => d.move_right sh
  | .moveUp sh, d => d.move_up sh
  | .moveDown sh, d => d.move_down sh
  | .moveHome sh, d => d.move_home sh
  | .moveEnd sh, d => d.move_end sh
  | .insertChar ch, d => d.insert_char ch
  | .deleteLeft, d => d.delete_left
  | .deleteRight, d => d.delete_right
  | .splitLine, d => d.split_line
  | .deleteSelection, d => d.delete_selection

/-- A horizontal move without the extend flag, for the sequences of
claim-level properties about non-extending movement. -/
inductive LRMove where
  | left
  | right
deriving Repr, DecidableEq

/-- Interpretation of one non-extending horizontal move. -/
def LRMove.apply : LRMove → Dialog → Dialog
  | .left, d => d.move_left false
  | .right, d => d.move_right false

/-- Runs a sequence of non-extending horizontal moves left to right. -/
def runLR (ms : List LRMove) (d : Dialog) : Dialog :=
  ms.foldl (fun s m => m.apply s) d

/-! Helper lemmas shared by the claim theorems. -/

theorem update_selection_lines (d : Dialog) (sh : Bool) (a b : Nat) :
    (d.update_selection sh a b).lines = d.lines := by
  unfold Dialog.update_selection
  split <;> rfl

theorem move_left_lines (d : Dialog) (sh : Bool) : (d.move_left sh).lines = d.lines := by
  rcases hcl : d.cursor_line with _ | cl
  · simp [Dialog.move_left, hcl]
  · simp only [Dialog.move_left, hcl]
    rw [update_selection_lines]
    split
    · rfl
    · split <;> rfl

theorem move_right_lines (d : Dialog) (sh : Bool) : (d.move_right sh).lines = d.lines := by
  rcases hcl : d.cursor_line with _ | cl
  · simp [Dialog.move_right, hcl]
  · simp only [Dialog.move_right, hcl]
    rw [update_selection_lines]
    split
    · rfl
    · split <;> rfl

theorem move_up_lines (d : Dialog) (sh : Bool) : (d.move_up sh).lines = d.lines := by
  rcases hcl : d.cursor_line with _ | cl
  · simp [Dialog.move_up, hcl]
  · simp only [Dialog.move_up, hcl]
    split
    · rfl
    · rw [update_selection_lines]

theorem move_down_lines (d : Dialog) (sh : Bool) : (d.move_down sh).lines = d.lines := by
  rcases hcl : d.cursor_line with _ | cl
  · simp [Dialog.move_down, hcl]
  · simp only [Dialog.move_down, hcl]
    split
    · rfl
    · rw [update_selection_lines]

theorem move_home_lines (d : Dialog) (sh : Bool) : (d.move_home sh).lines = d.lines := by
  rcases hcl : d.cursor_line with _ | cl
  · simp [Dialog.move_home, hcl]
  · simp only [Dialog.move_home, hcl]
    rw [update_selection_lines]

theorem move_end_lines (d : Dialog) (sh : Bool) : (d.move_end sh).lines = d.lines := by
  rcases hcl : d.cursor_line with _ | cl
  · simp [Dialog.move_end, hcl]
  · simp only [Dialog.move_end, hcl]
    rw [update_selection_lines]

theorem move_left_false_inactive (d : Dialog) (h : d.selection.is_active = false) :
    (d.move_left false).selection.is_active = false := by
  rcases hcl : d.cursor_line with _ | cl
  · simpa [Dialog.move_left, hcl] using h
  · simp [Dialog.move_left, hcl, Dialog.update_selection, Selection.is_active,
      Selection.reset]

theorem move_right_false_inactive (d : Dialog) (h : d.selection.is_active = false) :
    (d.move_right false).selection.is_active = false := by
  rcases hcl : d.cursor_line with _ | cl
  · simpa [Dialog.move_right, hcl] using h
  · simp [Dialog.move_right, hcl, Dialog.update_selection, Selection.is_active,
      Selection.reset]

theorem delete_selection_lines_nonempty (d : Dialog) (h : 1 ≤ d.lines.length) :
    1 ≤ (d.delete_selection).lines.length := by
  rcases hord : d.selection.ordered with ⟨⟨sl, so⟩, el, eo⟩
  by_cases he : sl = el
  · simpa [Dialog.delete_selection, hord, he] using h
  · simp only [Dialog.delete_selection, hord, if_neg he, List.length_set,
      List.length_append, List.length_take, List.length_drop]
    omega

/-! Claim theorems. -/

/-- C3: starting from any buffer state with an inactive selection, every
sequence of non-extending move_left and move_right calls leaves the
selection inactive; quantifying over all sequences covers the state
after each call, since every prefix is itself such a sequence. -/
theorem nonextending_moves_keep_selection_inactive (d : Dialog) (ms : List LRMove)
    (h : d.selection.is_active = false) :
    (runLR ms d).selection.is_active = false := by
  induction ms generalizing d with
  | nil => simpa [runLR] using h
  | cons m rest ih =>
    have hstep : (m.apply d).selection.is_active = false := by
      cases m
      · exact move_left_false_inactive d h
      · exact move_right_false_inactive d h
    simpa [runLR, List.foldl_cons] using ih (m.apply d) hstep

/-- Witness for C3 at a concrete buffer and sequence. -/
theorem nonextending_moves_keep_selection_inactive_witness :
    (runLR [LRMove.right, LRMove.right, LRMove.left]
        ⟨["ab", "cd"], some 0, 0, Selection.reset⟩).selection.is_active = false :=
  nonextending_moves_keep_selection_inactive
    ⟨["ab", "cd"], some 0, 0, Selection.reset⟩
    [LRMove.right, LRMove.right, LRMove.left] (by decide)

/-- C5: with lines ab and cd, cursor at line 1 offset 0 and any inactive
selection, delete_left merges the current line onto the previous one,
removes it, and parks the cursor at the pre-merge length of the
previous line, yielding the single line abcd with cursor (0,2); the selection
value is untouched by this branch. -/
theorem delete_left_at_line_start_merges (sel : Selection)
    (h : sel.is_active = false) :
    Dialog.delete_left ⟨["ab", "cd"], some 1, 0, sel⟩
      = ⟨["abcd"], some 0, 2, sel⟩ := by
  simp [Dialog.delete_left, h, Dialog.lineAt]
  decide

/-- Witness for C5 with the reset selection. -/
theorem delete_left_at_line_start_merges_witness :
    Dialog.delete_left ⟨["ab", "cd"], some 1, 0, Selection.reset⟩
      = ⟨["abcd"], some 0, 2, Selection.reset⟩ :=
  delete_left_at_line_start_merges Selection.reset (by decide)

/-- C7: activating a name with no registered factory fails with the
KeyError carrying the name and returns the router state unchanged: no
instance is created, no registry entry is added, and the focused name is
untouched. -/
theorem activate_unknown_name_fails {A : Type} (an : Anchor A) (name : String)
    (h : List.lookup name an.applet_classes = none) :
    an.activate name = (Except.error name, an) := by
  simp [Anchor.activate, h]

/-- Witness for C7 on an empty router. -/
theorem activate_unknown_name_fails_witness :
    Anchor.activate (A := Unit) ⟨[], [], none⟩ "editor"
      = (Except.error "editor", ⟨[], [], none⟩) :=
  activate_unknown_name_fails ⟨[], [], none⟩ "editor" rfl

/-- C9: split_line never modifies the selection: anchor and extent, and
hence is_active, are identical before and after, for every buffer state
(unlike insert_char, split_line has no active-selection deletion step). -/
theorem split_line_selection_frame (d : Dialog) :
    (d.split_line).selection = d.selection ∧
    (d.split_line).selection.is_active = d.selection.is_active := by
  have h : (d.split_line).selection = d.selection := by
    rcases hcl : d.cursor_line with _ | cl <;> simp [Dialog.split_line, hcl]
  exact ⟨h, by rw [h]⟩

/-- C10: on a buffer with no lines (cursor_line unset), every cursor
movement, extending or not, is a complete no-op: the whole state, lines,
cursor and selection, is returned unchanged, so in particular a
non-extending move does not reset the selection in this state. -/
theorem empty_buffer_moves_are_noops (d : Dialog) (sh : Bool)
    (_hl : d.lines = []) (hcl : d.cursor_line = none) :
    d.move_left sh = d ∧ d.move_right sh = d ∧ d.move_up sh = d ∧
    d.move_down sh = d ∧ d.move_home sh = d ∧ d.move_end sh = d := by
  refine ⟨?_, ?_, ?_, ?_, ?_, ?_⟩ <;>
    simp [Dialog.move_left, Dialog.move_right, Dialog.move_up, Dialog.move_down,
      Dialog.move_home, Dialog.move_end, hcl]

/-- Witness for C10 on the empty buffer with the extend flag set. -/
theorem empty_buffer_moves_are_noops_witness :
    Dialog.move_left ⟨[], none, 0, Selection.reset⟩ true
        = ⟨[], none, 0, Selection.reset⟩ ∧
    Dialog.move_right ⟨[], none, 0, Selection.reset⟩ true
        = ⟨[], none, 0, Selection.reset⟩ ∧
    Dialog.move_up ⟨[], none, 0, Selection.reset⟩ true
        = ⟨[], none, 0, Selection.reset⟩ ∧
    Dialog.move_down ⟨[], none, 0, Selection.reset⟩ true
        = ⟨[], none, 0, Selection.reset⟩ ∧
    Dialog.move_home ⟨[], none, 0, Selection.reset⟩ true
        = ⟨[], none, 0, Selection.reset⟩ ∧
    Dialog.move_end ⟨[], none, 0, Selection.reset⟩ true
        = ⟨[], none, 0, Selection.reset⟩ :=
  empty_buffer_moves_are_noops ⟨[], none, 0, Selection.reset⟩ true rfl rfl

/-- C2: a key event for the key a with only shift set canonicalises to
the string shift plus a; and against any binding table with no entry for
that string but an entry for the bare a, dispatch strips the shift
component and invokes the handler bound to a rather than the fallback. -/
theorem canon_shift_fallback {H : Type} (mk : ModifiedKey)
    (hk : mk.key = "a") (hs : mk.shift = true) (hc : mk.ctrl = false)
    (ha : mk.alt = false) (hm : mk.meta = false)
    (B : String → Option H) (f : H)
    (hmiss : B "shift+a" = none) (hhit : B "a" = some f) :
    canon mk = "shift+a" ∧ dispatch B mk = DispatchResult.handler f := by
  obtain ⟨key, ctrl, alt, shf, mta⟩ := mk
  simp only at hk hs hc ha hm
  subst hk hs hc ha hm
  have hcanon : canon ⟨"a", false, false, true, false⟩ = "shift+a" := by decide
  have hrep : pyReplace "shift+a" "shift+" "" = "a" := by decide
  refine ⟨hcanon, ?_⟩
  simp only [dispatch, hcanon, hmiss, hrep, hhit, Option.isNone_none, Bool.and_self,
    if_true]

/-- Witness for C2 with a one-entry binding table. -/
theorem canon_shift_fallback_witness :
    canon ⟨"a", false, false, true, false⟩ = "shift+a" ∧
    dispatch (fun s => if s = "a" then some 0 else none)
        ⟨"a", false, false, true, false⟩ = DispatchResult.handler 0 :=
  canon_shift_fallback ⟨"a", false, false, true, false⟩ rfl rfl rfl rfl rfl
    (fun s => if s = "a" then some 0 else none) 0 (by decide) (by decide)

/-- C8: joining a non-empty sequence of newline-free lines with newline
separators, as the save command writes them, and splitting the result on
newlines reproduces the original line sequence exactly, empty trailing
lines included (String.data is injective, so equality of the codepoint
sequences is equality of the lines). -/
theorem save_roundtrip (ls : List String) (hne : ls ≠ [])
    (hnl : ∀ l ∈ ls, '\n' ∉ l.data) :
    splitNewlines (savePayload ls) = ls.map String.data := by
  unfold splitNewlines savePayload
  refine List.splitOn_intercalate (ls.map String.data) '\n' ?_ ?_
  · intro l hl
    obtain ⟨s, hs, rfl⟩ := List.mem_map.mp hl
    exact hnl s hs
  · simpa [List.map_eq_nil_iff] using hne

/-- Witness for C8 on lines with an empty line in the middle and an
empty trailing line. -/
theorem save_roundtrip_witness :
    splitNewlines (savePayload ["ab", "", "c", ""])
      = (["ab", "", "c", ""] : List String).map String.data :=
  save_roundtrip ["ab", "", "c", ""] (by decide) (by decide)

/-- C4: from any buffer whose cursor sits at offset k with 0 < k and k
at most the current line length, and whose selection is inactive,
extending left then extending right restores the cursor and collapses
the selection back onto its anchor, so is_active is false again. -/
theorem extend_left_right_symmetric (d : Dialog) (cl : Nat)
    (hcl : d.cursor_line = some cl)
    (h0 : 0 < d.cursor_offset)
    (hoff : d.cursor_offset ≤ (d.lineAt cl).length)
    (hact : d.selection.is_active = false) :
    ((d.move_left true).move_right true).cursor_line = some cl ∧
    ((d.move_left true).move_right true).cursor_offset = d.cursor_offset ∧
    ((d.move_left true).move_right true).selection.is_active = false := by
  obtain ⟨ls, ocl, k, sel⟩ := d
  simp only at hcl h0 hoff hact
  subst hcl
  simp only [Dialog.lineAt] at hoff
  have h1 : Dialog.move_left ⟨ls, some cl, k, sel⟩ true
      = ⟨ls, some cl, k - 1, ⟨some cl, some k, some cl, some (k - 1)⟩⟩ := by
    simp [Dialog.move_left, Dialog.update_selection, Selection.set_anchor,
      Selection.update_end, h0, hact]
  have hlt2 : k - 1 < (ls.getD cl "").length := by omega
  have hne : (k : Nat) ≠ k - 1 := by omega
  have h2 : Dialog.move_right ⟨ls, some cl, k - 1,
        ⟨some cl, some k, some cl, some (k - 1)⟩⟩ true
      = ⟨ls, some cl, k, ⟨some cl, some k, some cl, some k⟩⟩ := by
    have hact2 : Selection.is_active ⟨some cl, some k, some cl, some (k - 1)⟩
        = true := by
      simp [Selection.is_active, hne]
    simp only [Dialog.move_right, Dialog.lineAt, hlt2, if_pos, hact2,
      Dialog.update_selection, Selection.update_end, Bool.not_true,
      Bool.false_eq_true, if_false, if_true]
    have hk : k - 1 + 1 = k := by omega
    simp [hk]
  rw [h1, h2]
  refine ⟨rfl, rfl, ?_⟩
  simp [Selection.is_active]

/-- Witness for C4 at a concrete one-line buffer. -/
theorem extend_left_right_symmetric_witness :
    ((Dialog.move_left ⟨["ab"], some 0, 1, Selection.reset⟩ true).move_right
        true).cursor_line = some 0 ∧
    ((Dialog.move_left ⟨["ab"], some 0, 1, Selection.reset⟩ true).move_right
        true).cursor_offset = 1 ∧
    ((Dialog.move_left ⟨["ab"], some 0, 1, Selection.reset⟩ true).move_right
        true).selection.is_active = false :=
  extend_left_right_symmetric ⟨["ab"], some 0, 1, Selection.reset⟩ 0 rfl
    (by decide) (by decide) (by decide)

/-- C6: every buffer operation applied to a buffer with at least one
line and a well-formed cursor (line index inside the buffer, offset at
most the current line length) leaves at least one line: the length at
least one invariant is preserved by cursor moves, insert_char,
delete_left, delete_right, split_line and selection deletion. -/
theorem buffer_stays_nonempty (d : Dialog) (op : BufOp) (cl : Nat)
    (hne : 1 ≤ d.lines.length)
    (hcl : d.cursor_line = some cl)
    (hlt : cl < d.lines.length)
    (_hoff : d.cursor_offset ≤ (d.lineAt cl).length) :
    1 ≤ (op.apply d).lines.length := by
  cases op with
  | moveLeft sh => rw [BufOp.apply, move_left_lines]; exact hne
  | moveRight sh => rw [BufOp.apply, move_right_lines]; exact hne
  | moveUp sh => rw [BufOp.apply, move_up_lines]; exact hne
  | moveDown sh => rw [BufOp.apply, move_down_lines]; exact hne
  | moveHome sh => rw [BufOp.apply, move_home_lines]; exact hne
  | moveEnd sh => rw [BufOp.apply, move_end_lines]; exact hne
  | insertChar ch =>
    rw [BufOp.apply]
    simp only [Dialog.insert_char, hcl, List.length_set]
    split
    · exact delete_selection_lines_nonempty d hne
    · exact hne
  | deleteLeft =>
    rw [BufOp.apply]
    unfold Dialog.delete_left
    split
    · exact delete_selection_lines_nonempty d hne
    · simp only [hcl]
      split
      · exact hne
      · split
        · simpa using hne
        · rename_i hz hpos
          have hc0 : cl ≠ 0 := by
            intro h
            exact hz ⟨h, by omega⟩
          simp only [List.length_eraseIdx, List.length_set]
          split <;> omega
  | deleteRight =>
    rw [BufOp.apply]
    unfold Dialog.delete_right
    split
    · exact delete_selection_lines_nonempty d hne
    · simp only [hcl]
      split
      · simpa using hne
      · split
        · rename_i hnext
          simp only [List.length_eraseIdx, List.length_set]
          split <;> omega
        · exact hne
  | splitLine =>
    rw [BufOp.apply]
    simp only [Dialog.split_line, hcl, List.length_append, List.length_take,
      List.length_drop, List.length_set]
    omega
  | deleteSelection =>
    rw [BufOp.apply]
    exact delete_selection_lines_nonempty d hne

/-- Witness for C6: a backspace line merge on a two-line buffer. -/
theorem buffer_stays_nonempty_witness :
    1 ≤ (BufOp.apply BufOp.deleteLeft
        ⟨["ab", "cd"], some 1, 0, Selection.reset⟩).lines.length :=
  buffer_stays_nonempty ⟨["ab", "cd"], some 1, 0, Selection.reset⟩
    BufOp.deleteLeft 1 (by decide) rfl (by decide) (by decide)

/-- Follows the claim words: deleting the lines with indices a through b
inclusive from a line list. -/
def specDeleteRange (ls : List String) (a b : Nat) : List String :=
  ls.take a ++ ls.drop (b + 1)

/-- Follows the claim words for a selection spanning several lines, with
ordered endpoints (sl, so) and (el, eo): keep the prefix of the first
line up to so, keep the suffix of the last line from eo, concatenate
them into the first line, and delete lines sl plus one through el
inclusive. -/
def specMultilineDeletion (ls : List String) (sl so el eo : Nat) : List String :=
  specDeleteRange
    (ls.set sl ((ls.getD sl "").take so ++ (ls.getD el "").drop eo)) (sl + 1) el

/-- C1 counterexample: at the claimed input, two lines abc and def with
ordered selection endpoints (0,3) and (1,1), deleting the selection
keeps the whole prefix abc of the first line (its length is 3) plus the
suffix ef of the second, so the result is the single line abcef, not the
claimed aef. -/
theorem delete_selection_claimed_example_false :
    (Dialog.delete_selection
        ⟨["abc", "def"], some 0, 3, ⟨some 0, some 3, some 1, some 1⟩⟩).lines
      ≠ ["aef"] := by decide

/-- C1 (amended): for every buffer whose ordered selection endpoints
(sl, so) and (el, eo) span several lines inside the buffer,
delete_selection implements exactly the claimed rule, keep the prefix of
the first line up to so and the suffix of the last line from eo,
concatenate them into the first line and delete lines sl plus one
through el inclusive, with the cursor moved to the first endpoint and
the selection reset; at the claimed input the single resulting line is
abcef, not aef. -/
theorem delete_selection_multiline_rule (d : Dialog) (sl so el eo : Nat)
    (hord : d.selection.ordered = ((sl, so), (el, eo)))
    (hlt : sl < el) (hel : el < d.lines.length) :
    (d.delete_selection).lines = specMultilineDeletion d.lines sl so el eo ∧
    (d.delete_selection).cursor_line = some sl ∧
    (d.delete_selection).cursor_offset = so ∧
    (d.delete_selection).selection = Selection.reset := by
  have hsl : sl < d.lines.length := lt_trans hlt hel
  have hne2 : sl ≠ el := Nat.ne_of_lt hlt
  simp only [Dialog.delete_selection, hord, if_neg hne2, Dialog.lineAt]
  refine ⟨?_, trivial, trivial, trivial⟩
  have hdrop1 : (d.lines.set sl ((d.lines.getD sl "").take so)).drop (el + 1)
      = d.lines.drop (el + 1) := by
    rw [List.drop_set, if_pos (by omega)]
  have hget_el : (d.lines.set sl ((d.lines.getD sl "").take so)).getD el ""
      = d.lines.getD el "" := by
    simp [List.getD_eq_getElem?_getD, List.getElem?_set_ne hne2]
  have htake_len :
      ((d.lines.set sl ((d.lines.getD sl "").take so)).take (sl + 1)).length
        = sl + 1 := by
    simp only [List.length_take, List.length_set]
    omega
  have hget_sl :
      ((d.lines.set sl ((d.lines.getD sl "").take so)).take (sl + 1)
          ++ d.lines.drop (el + 1)).getD sl ""
        = (d.lines.getD sl "").take so := by
    rw [List.getD_eq_getElem?_getD, List.getElem?_append,
      if_pos (by rw [htake_len]; omega), List.getElem?_take,
      if_pos (Nat.lt_succ_self sl), List.getElem?_set_self (by omega)]
    rfl
  rw [hdrop1, hget_el, hget_sl]
  rw [List.set_append, if_pos (by rw [htake_len]; omega)]
  rw [← List.set_take, List.set_set]
  rw [specMultilineDeletion, specDeleteRange, List.set_take]
  rw [List.drop_set, if_pos (by omega)]

/-- Witness for C1 amended at the claimed input: the result is the
single line abcef with cursor (0,3) and the selection reset. -/
theorem delete_selection_multiline_rule_witness :
    (Dialog.delete_selection
        ⟨["abc", "def"], some 0, 3, ⟨some 0, some 3, some 1, some 1⟩⟩).lines
      = ["abcef"] ∧
    (Dialog.delete_selection
        ⟨["abc", "def"], some 0, 3, ⟨some 0, some 3, some 1, some 1⟩⟩).cursor_line
      = some 0 ∧
    (Dialog.delete_selection
        ⟨["abc", "def"], some 0, 3, ⟨some 0, some 3, some 1, some 1⟩⟩).cursor_offset
      = 3 ∧
    (Dialog.delete_selection
        ⟨["abc", "def"], some 0, 3, ⟨some 0, some 3, some 1, some 1⟩⟩).selection
      = Selection.reset := by
  have h := delete_selection_multiline_rule
    ⟨["abc", "def"], some 0, 3, ⟨some 0, some 3, some 1, some 1⟩⟩ 0 3 1 1
    (by decide) (by decide) (by decide)
  exact ⟨h.1.trans (by decide), h.2.1, h.2.2.1, h.2.2.2⟩

end Winston

